import Mathlib

/-!
Shallow embedding of the `jsonstat` accumulator core (`src/lib.rs`).

JSON values are modelled by `JVal`; numbers carry serde_json's internal
distinction between the integer representation (produced for integer
literals) and the float representation (produced for literals with a
decimal point or exponent).  Finite `f64` payloads are modelled as
rationals: the only operations the code performs on them are order
comparisons and copies, and the embedding of the finite doubles into ℚ
preserves order.  Rust `String::len` is the UTF-8 byte length, modelled
by `String.utf8ByteSize`.  `BTreeMap<String, _>` is modelled by an
association list kept sorted by key (`mapInsert` / `mapGet`); Lean's
`String` order (codepoint-lexicographic) coincides with Rust's
byte-lexicographic order because UTF-8 preserves codepoint order.
-/

namespace Jsonstat

/-- Model of `serde_json::Number`.  `int n` stands for the `PosInt`/`NegInt`
representations produced for integer literals (the parser guarantees
`-2^63 ≤ n < 2^64`); `float q` stands for the `Float` representation
produced for literals with a fractional part or exponent (always finite,
never NaN). -/
inductive JNum where
  | int (n : Int)
  | float (q : ℚ)

/-- Model of `serde_json::Value`. -/
inductive JVal where
  | null
  | bool (b : Bool)
  | num (n : JNum)
  | str (s : String)
  | arr (elems : List JVal)
  | obj (fields : List (String × JVal))

mutual

/-- Number of nodes of a JSON value (a computable size measure used to
bound the work-list traversal of `stat_value`). -/
def JVal.size : JVal → Nat
  | .null => 1
  | .bool _ => 1
  | .num _ => 1
  | .str _ => 1
  | .arr elems => 1 + JVal.sizeL elems
  | .obj fields => 1 + JVal.sizeF fields

/-- Total size of a list of JSON values. -/
def JVal.sizeL : List JVal → Nat
  | [] => 0
  | x :: xs => JVal.size x + JVal.sizeL xs

/-- Total size of the values of an object's field list. -/
def JVal.sizeF : List (String × JVal) → Nat
  | [] => 0
  | (_, v) :: rest => JVal.size v + JVal.sizeF rest

end

/-- Largest `i64` value. -/
def i64Max : Int := 2 ^ 63 - 1

/-- Model of `serde_json::Number::as_i64`: succeeds exactly on the integer
representations that fit in `i64` (all `NegInt`s do; a `PosInt` does iff it
is at most `i64::MAX`), and always fails on the float representation —
even for a float with no fractional part such as `3.0`. -/
def JNum.as_i64 : JNum → Option Int
  | .int n => if n ≤ i64Max then some n else none
  | .float _ => none

/-- Model of `serde_json::Number::as_f64`: always succeeds (the `f64`
rounding of an out-of-range integer is modelled exactly, which is faithful
up to the order-preserving embedding used for doubles). -/
def JNum.as_f64 : JNum → Option ℚ
  | .int n => some (n : ℚ)
  | .float q => some q

/-- Running aggregate `MaxMinCount<T>` from `src/lib.rs` (field order as in
the source: `count`, `max`, `min`). -/
structure MaxMinCount (T : Type) where
  count : Nat
  max : T
  min : T
deriving DecidableEq

/-- `MaxMinCount::new`: count 0, `max`/`min` at `T::default()` (0 for
`usize`, `i64` and `f64`). -/
def MaxMinCount.new {T : Type} [Zero T] : MaxMinCount T := ⟨0, 0, 0⟩

/-- `MaxMinCount::add`. -/
def MaxMinCount.add {T : Type} [LinearOrder T] (s : MaxMinCount T)
    (new_value : T) : MaxMinCount T :=
  let s' :=
    if s.count = 0 then
      { s with max := new_value, min := new_value }
    else
      { s with
        max := if new_value > s.max then new_value else s.max,
        min := if new_value < s.min then new_value else s.min }
  { s' with count := s'.count + 1 }

/-- `MaxMinCount::merge`.  Note that the `else` branch compares against
`other.max` / `other.min` without checking `other.count == 0`. -/
def MaxMinCount.merge {T : Type} [LinearOrder T] (s other : MaxMinCount T) :
    MaxMinCount T :=
  let s' :=
    if s.count = 0 then
      { s with max := other.max, min := other.min }
    else
      { s with
        max := if other.max > s.max then other.max else s.max,
        min := if other.min < s.min then other.min else s.min }
  { s' with count := s'.count + other.count }

/-- Plain counter `Count` from `src/lib.rs`. -/
structure Count where
  count : Nat
deriving DecidableEq

/-- `Count::new`. -/
def Count.new : Count := ⟨0⟩

/-- `Count::add`. -/
def Count.add (c : Count) : Count := ⟨c.count + 1⟩

/-- `Count::merge`. -/
def Count.merge (c other : Count) : Count := ⟨c.count + other.count⟩

/-- Per-path item `JsonStatItem` from `src/lib.rs` (string-length, int,
float aggregates; bool, null, object counters; array-length aggregate). -/
structure JsonStatItem where
  string : MaxMinCount Nat
  int : MaxMinCount Int
  float : MaxMinCount ℚ
  bool : Count
  null : Count
  object : Count
  array : MaxMinCount Nat
deriving DecidableEq

/-- `JsonStatItem::new`. -/
def JsonStatItem.new : JsonStatItem :=
  ⟨MaxMinCount.new, MaxMinCount.new, MaxMinCount.new,
   Count.new, Count.new, Count.new, MaxMinCount.new⟩

/-- `JsonStatItem::merge`: merges the seven aggregates pointwise. -/
def JsonStatItem.merge (it other : JsonStatItem) : JsonStatItem :=
  { string := it.string.merge other.string
    int := it.int.merge other.int
    float := it.float.merge other.float
    bool := it.bool.merge other.bool
    null := it.null.merge other.null
    object := it.object.merge other.object
    array := it.array.merge other.array }

/-- `JsonStatItem::stat`: classifies one JSON value into exactly one of the
seven aggregates and returns the child work items (one `key ++ "[]"` pair
per array element, one `key ++ "." ++ field` pair per object field). -/
def JsonStatItem.stat (it : JsonStatItem) (key : String) (data : JVal) :
    JsonStatItem × List (String × JVal) :=
  match data with
  | .str s => ({ it with string := it.string.add s.utf8ByteSize }, [])
  | .num n =>
    (match n.as_i64 with
     | some num => { it with int := it.int.add num }
     | none =>
       match n.as_f64 with
       | some num => { it with float := it.float.add num }
       | none => it,
     [])
  | .null => ({ it with null := it.null.add }, [])
  | .bool _ => ({ it with bool := it.bool.add }, [])
  | .arr arr =>
    ({ it with array := it.array.add arr.length },
     arr.map (fun item => (key ++ "[]", item)))
  | .obj obj =>
    ({ it with object := it.object.add },
     obj.map (fun kv => (key ++ "." ++ kv.1, kv.2)))

/-- Lookup in a string-keyed association list; models both
`serde_json::Map::get` (on parsed objects, keys are unique) and
`BTreeMap::get`. -/
def mapGet {α : Type} : List (String × α) → String → Option α
  | [], _ => none
  | (k', v) :: rest, k => if k = k' then some v else mapGet rest k

/-- Lexicographic comparison of character lists by codepoint.  Because
UTF-8 preserves codepoint order, this is exactly Rust's byte-lexicographic
`Ord` on `String`, the order `BTreeMap<String, _>` sorts by. -/
def charListLt : List Char → List Char → Bool
  | [], [] => false
  | [], _ :: _ => true
  | _ :: _, [] => false
  | a :: as, b :: bs =>
    if a.toNat < b.toNat then true
    else if b.toNat < a.toNat then false
    else charListLt as bs

/-- Rust's `String` ordering. -/
def strLt (a b : String) : Bool := charListLt a.data b.data

/-- Insertion into a key-sorted association list, replacing the value when
the key is already present; models `BTreeMap::insert` /
`serde_json::Map::insert`. -/
def mapInsert {α : Type} : List (String × α) → String → α → List (String × α)
  | [], k, v => [(k, v)]
  | (k', v') :: rest, k, v =>
    if strLt k k' then (k, v) :: (k', v') :: rest
    else if k = k' then (k, v) :: rest
    else (k', v') :: mapInsert rest k v

/-- Model of Rust `str::split('.')` on a character list: splits at every
occurrence of the separator, keeping empty pieces (so `""` yields `[[]]`
and a trailing separator yields a trailing empty piece). -/
def splitCharList (c : Char) : List Char → List (List Char)
  | [] => [[]]
  | x :: xs =>
    if x = c then [] :: splitCharList c xs
    else
      match splitCharList c xs with
      | [] => [[x]]
      | g :: gs => (x :: g) :: gs

/-- Rust `key.split('.')` as used by `get_group_key`. -/
def splitDot (s : String) : List String :=
  (splitCharList '.' s.data).map (fun l => String.mk l)

/-- Accumulator `JsonStat` from `src/lib.rs`: a `BTreeMap` from key path to
per-path item (modelled as a key-sorted association list) plus the optional
grouping key. -/
structure JsonStat where
  items : List (String × JsonStatItem)
  group_key : Option String

/-- `JsonStat::new`. -/
def JsonStat.new : JsonStat := ⟨[], none⟩

/-- `JsonStat::new_by_group`. -/
def JsonStat.new_by_group (group_key : String) : JsonStat :=
  ⟨[], some group_key⟩

/-- The loop of `get_group_key` over the dotted segments: descend through
objects by field name, failing (`none`) when a segment is absent or an
intermediate value is not an object. -/
def groupWalk : List String → JVal → Option JVal
  | [], v => some v
  | k :: ks, v =>
    match v with
    | .obj fields =>
      match mapGet fields k with
      | some v2 => groupWalk ks v2
      | none => none
    | _ => none

/-- `JsonStat::get_group_key`: with no grouping key the root path is `""`;
otherwise it is the string value reached by walking the document along the
grouping key's dot-separated segments, and `""` on any failure (absent
segment, non-object intermediate, non-string final value). -/
def JsonStat.get_group_key (s : JsonStat) (value : JVal) : String :=
  match s.group_key with
  | some key =>
    match groupWalk (splitDot key) value with
    | some v =>
      match v with
      | .str r => r
      | _ => ""
    | none => ""
  | none => ""

/-- One step of the `stat_value` work-list loop: pop the most recently
pushed entry, classify it into a fresh item (`stat_key_value`), push the
children, and merge the fresh item into the mapping (`merge` into the
existing entry, plain insert when the path is new).  The list head is the
stack top, so the children are pushed reversed to match
`Vec::pop`/`Vec::extend` order.  The `fuel` argument only bounds the number
of iterations; `statLoopN_fuel_irrelevant` below shows that any fuel of at
least `valsSize todo` (the amount `stat_value` supplies) yields the fixed
point of the loop, so the fuel never cuts a traversal short. -/
def statLoopN : Nat → JsonStat → List (String × JVal) → JsonStat
  | _, s, [] => s
  | 0, s, _ :: _ => s
  | fuel + 1, s, (k, v) :: rest =>
    let res := JsonStatItem.stat JsonStatItem.new k v
    let items' :=
      match mapGet s.items k with
      | some v1 => mapInsert s.items k (v1.merge res.1)
      | none => mapInsert s.items k res.1
    statLoopN fuel { s with items := items' } (res.2.reverse ++ rest)

/-- Total size of the pending values of a work list, used to bound the
number of loop iterations. -/
def valsSize (l : List (String × JVal)) : Nat :=
  (l.map (fun kv => kv.2.size)).sum

/-- `JsonStat::stat_value`: seed the work list with the group-keyed root and
run the loop to completion; always returns `true`. -/
def JsonStat.stat_value (s : JsonStat) (value : JVal) : JsonStat × Bool :=
  (statLoopN value.size s [(s.get_group_key value, value)], true)

/-- `JsonStat::stat_str`: the serde_json parse of the input line is external
to the core and is modelled by its result (`none` for a line that is not
valid JSON, `some v` for a line parsing to `v`). -/
def JsonStat.stat_str (s : JsonStat) (parsed : Option JVal) : JsonStat × Bool :=
  match parsed with
  | some value => s.stat_value value
  | none => (s, false)

/-- `JsonStat::merge`: fold the other accumulator's entries (in its map
order) into this one, item-merging on shared paths and copying new ones. -/
def JsonStat.merge (s other : JsonStat) : JsonStat :=
  { s with
    items :=
      other.items.foldl
        (fun m kv =>
          match mapGet m kv.1 with
          | some v1 => mapInsert m kv.1 (v1.merge kv.2)
          | none => mapInsert m kv.1 kv.2)
        s.items }

/-- JSON number for a `usize` field. -/
def natNum (n : Nat) : JVal := .num (.int (n : Int))

/-- JSON number for an `i64` field. -/
def intNum (i : Int) : JVal := .num (.int i)

/-- JSON number for an `f64` field. -/
def ratNum (q : ℚ) : JVal := .num (.float q)

/-- The `json!({"count": N})` object emitted for a counter kind. -/
def countJson (c : Count) : JVal :=
  .obj (mapInsert [] "count" (natNum c.count))

/-- The `json!({"count": N, "min": V, "max": V})` object emitted for an
ordered kind (`serde_json::Map` sorts the three keys). -/
def mmJson {T : Type} (f : T → JVal) (m : MaxMinCount T) : JVal :=
  .obj (mapInsert (mapInsert (mapInsert [] "count" (natNum m.count))
    "min" (f m.min)) "max" (f m.max))

/-- `JsonStatItem::to_json_value`: the compact per-path object, inserting
(into a `serde_json::Map`, i.e. sorted by kind name) only the kind groups
whose count is non-zero, in source order null, bool, int, float, string,
array, object. -/
def JsonStatItem.to_json_value (it : JsonStatItem) : JVal :=
  let m : List (String × JVal) := []
  let m := if it.null.count > 0 then mapInsert m "null" (countJson it.null) else m
  let m := if it.bool.count > 0 then mapInsert m "bool" (countJson it.bool) else m
  let m := if it.int.count > 0 then mapInsert m "int" (mmJson intNum it.int) else m
  let m := if it.float.count > 0 then mapInsert m "float" (mmJson ratNum it.float) else m
  let m := if it.string.count > 0 then mapInsert m "string" (mmJson natNum it.string) else m
  let m := if it.array.count > 0 then mapInsert m "array" (mmJson natNum it.array) else m
  let m := if it.object.count > 0 then mapInsert m "object" (countJson it.object) else m
  .obj m

/-- The `full = false` branch of `JsonStat::to_json_str`, modelled at the
JSON-value level (the final string printing of `serde_json` is external):
a JSON object collecting `to_json_value` of every path, built by inserting
the entries in map order. -/
def JsonStat.to_json_compact (s : JsonStat) : JVal :=
  .obj (s.items.foldl (fun m kv => mapInsert m kv.1 kv.2.to_json_value) [])

/-- Spec-side description of the compact per-path object: one entry per
kind group with non-zero count — `{count, min, max}` for the ordered kinds
(int, float, string, array), `{count}` for the counter kinds (null, bool,
object), zero-count kinds omitted entirely — listed in the serialized
(kind-name-sorted) order. -/
def compactFieldsSpec (it : JsonStatItem) : List (String × JVal) :=
  (if it.array.count > 0 then
    [("array", JVal.obj [("count", natNum it.array.count),
      ("max", natNum it.array.max), ("min", natNum it.array.min)])] else []) ++
  (if it.bool.count > 0 then
    [("bool", JVal.obj [("count", natNum it.bool.count)])] else []) ++
  (if it.float.count > 0 then
    [("float", JVal.obj [("count", natNum it.float.count),
      ("max", ratNum it.float.max), ("min", ratNum it.float.min)])] else []) ++
  (if it.int.count > 0 then
    [("int", JVal.obj [("count", natNum it.int.count),
      ("max", intNum it.int.max), ("min", intNum it.int.min)])] else []) ++
  (if it.null.count > 0 then
    [("null", JVal.obj [("count", natNum it.null.count)])] else []) ++
  (if it.object.count > 0 then
    [("object", JVal.obj [("count", natNum it.object.count)])] else []) ++
  (if it.string.count > 0 then
    [("string", JVal.obj [("count", natNum it.string.count),
      ("max", natNum it.string.max), ("min", natNum it.string.min)])] else [])

/-- Spec-side description of the grouping-key walk: follow the dotted
segments through objects; the result is the final string value, and `""`
as soon as a segment is absent, an intermediate value is not an object, or
the final value is not a string. -/
def specWalk : List String → JVal → String
  | [], .str r => r
  | [], _ => ""
  | k :: ks, .obj fields =>
    match mapGet fields k with
    | some v => specWalk ks v
    | none => ""
  | _ :: _, _ => ""

/-- Spec-side root path of a document under a configured grouping key. -/
def specGroupPath (group_key : String) (v : JVal) : String :=
  specWalk (splitDot group_key) v

/-- Keys of an association list are strictly ascending — the `BTreeMap`
representation invariant of the accumulator mapping. -/
abbrev KeysSorted {α : Type} (l : List (String × α)) : Prop :=
  l.Pairwise (fun a b => strLt a.1 b.1 = true)

theorem charListLt_irrefl : ∀ l : List Char, charListLt l l = false
  | [] => rfl
  | a :: as => by simp [charListLt, charListLt_irrefl as]

theorem charListLt_asymm : ∀ l₁ l₂ : List Char,
    charListLt l₁ l₂ = true → charListLt l₂ l₁ = false
  | [], [] => by simp [charListLt]
  | [], _ :: _ => fun _ => rfl
  | _ :: _, [] => by simp [charListLt]
  | a :: as, b :: bs => by
    simp only [charListLt]
    split_ifs with h1 h2 <;> intro h
    · exact absurd h2 (Nat.lt_asymm h1)
    · rfl
    · exact absurd h (by simp)
    · exact charListLt_asymm as bs h

theorem strLt_asymm (a b : String) (h : strLt a b = true) : strLt b a = false :=
  charListLt_asymm _ _ h

theorem strLt_ne {a b : String} (h : strLt a b = true) : a ≠ b := by
  rintro rfl
  rw [strLt, charListLt_irrefl] at h
  exact Bool.false_ne_true h

/-- Inserting a key greater than every key of a sorted map appends. -/
theorem mapInsert_append {α : Type} (m : List (String × α)) (k : String)
    (v : α) (h : ∀ p ∈ m, strLt p.1 k = true) :
    mapInsert m k v = m ++ [(k, v)] := by
  induction m with
  | nil => rfl
  | cons hd tl ih =>
    obtain ⟨k', v'⟩ := hd
    have hk : strLt k' k = true := h (k', v') (by simp)
    simp only [mapInsert, strLt_asymm _ _ hk, Bool.false_eq_true, if_false,
      List.cons_append]
    rw [if_neg (strLt_ne hk).symm]
    simp [ih (fun p hp => h p (List.mem_cons_of_mem _ hp))]

/-- Folding key-ascending entries into a map whose keys all precede them
reproduces the entries in order. -/
theorem foldl_mapInsert_sorted {α β : Type} (f : β → α) :
    ∀ (l : List (String × β)) (m : List (String × α)),
      KeysSorted l → (∀ p ∈ m, ∀ q ∈ l, strLt p.1 q.1 = true) →
      l.foldl (fun acc kv => mapInsert acc kv.1 (f kv.2)) m
        = m ++ l.map (fun kv => (kv.1, f kv.2)) := by
  intro l
  induction l with
  | nil => intro m _ _; simp
  | cons hd tl ih =>
    intro m hs hm
    rw [List.foldl_cons,
      mapInsert_append m hd.1 (f hd.2) (fun p hp => hm p hp hd (by simp))]
    rw [ih (m ++ [(hd.1, f hd.2)]) hs.of_cons ?_]
    · simp
    · intro p hp q hq
      rcases List.mem_append.mp hp with hp | hp
      · exact hm p hp q (List.mem_cons_of_mem _ hq)
      · have hpq : p = (hd.1, f hd.2) := by simpa using hp
        subst hpq
        exact (List.pairwise_cons.mp hs).1 q hq

set_option maxHeartbeats 2000000 in
/-- The compact per-path object is exactly the spec-side field list. -/
theorem to_json_value_eq_spec (it : JsonStatItem) :
    it.to_json_value = JVal.obj (compactFieldsSpec it) := by
  simp only [JsonStatItem.to_json_value, compactFieldsSpec]
  split_ifs <;> rfl

theorem groupWalk_specWalk : ∀ (segs : List String) (v : JVal),
    (match groupWalk segs v with
     | some w => match w with | .str r => r | _ => ""
     | none => "") = specWalk segs v
  | [], v => by cases v <;> rfl
  | k :: ks, v => by
    cases v with
    | obj fields =>
      simp only [groupWalk, specWalk]
      cases mapGet fields k with
      | none => rfl
      | some v2 => exact groupWalk_specWalk ks v2
    | null => rfl
    | bool b => rfl
    | num n => rfl
    | str s => rfl
    | arr elems => rfl

/-- The grouping rule of `get_group_key` agrees with the spec-side walk. -/
theorem get_group_key_spec (gk : String) (v : JVal) :
    (JsonStat.new_by_group gk).get_group_key v = specGroupPath gk v := by
  simpa [JsonStat.get_group_key, JsonStat.new_by_group, specGroupPath] using
    groupWalk_specWalk (splitDot gk) v

theorem JVal.size_pos : ∀ v : JVal, 0 < v.size := by
  intro v
  cases v <;> simp [JVal.size]

theorem sum_map_size_eq_sizeL : ∀ elems : List JVal,
    (elems.map JVal.size).sum = JVal.sizeL elems
  | [] => rfl
  | a :: l => by simp [JVal.sizeL, sum_map_size_eq_sizeL l]

theorem valsSize_cons (k : String) (v : JVal) (rest : List (String × JVal)) :
    valsSize ((k, v) :: rest) = v.size + valsSize rest := by
  simp [valsSize]

theorem valsSize_append (a b : List (String × JVal)) :
    valsSize (a ++ b) = valsSize a + valsSize b := by
  simp [valsSize]

theorem valsSize_reverse (l : List (String × JVal)) :
    valsSize l.reverse = valsSize l := by
  simp [valsSize, List.map_reverse, List.sum_reverse]

/-- The children pushed for one value are strictly smaller than it. -/
theorem stat_children_size (it : JsonStatItem) (k : String) (v : JVal) :
    valsSize (JsonStatItem.stat it k v).2 < v.size := by
  cases v with
  | arr elems =>
    have h : ∀ es : List JVal,
        valsSize (es.map (fun item => (k ++ "[]", item))) = JVal.sizeL es := by
      intro es
      induction es with
      | nil => rfl
      | cons a tl ih =>
        simp [valsSize, JVal.sizeL] at ih ⊢
        omega
    simp [JsonStatItem.stat, JVal.size, h]
  | obj fields =>
    have h : ∀ fs : List (String × JVal),
        valsSize (fs.map (fun kv => (k ++ "." ++ kv.1, kv.2))) = JVal.sizeF fs := by
      intro fs
      induction fs with
      | nil => rfl
      | cons hd tl ih =>
        obtain ⟨k', v'⟩ := hd
        simp [valsSize, JVal.sizeF] at ih ⊢
        omega
    simp [JsonStatItem.stat, JVal.size, h]
  | null => simp [JsonStatItem.stat, valsSize, JVal.size]
  | bool b => simp [JsonStatItem.stat, valsSize, JVal.size]
  | num n => simp [JsonStatItem.stat, valsSize, JVal.size]
  | str s => simp [JsonStatItem.stat, valsSize, JVal.size]

theorem statLoopN_nil (fuel : Nat) (s : JsonStat) :
    statLoopN fuel s [] = s := by
  cases fuel <;> rfl

theorem statLoopN_cons (fuel : Nat) (s : JsonStat) (k : String) (v : JVal)
    (rest : List (String × JVal)) :
    statLoopN (fuel + 1) s ((k, v) :: rest)
      = statLoopN fuel
          { s with
            items :=
              match mapGet s.items k with
              | some v1 =>
                mapInsert s.items k
                  (v1.merge (JsonStatItem.stat JsonStatItem.new k v).1)
              | none =>
                mapInsert s.items k (JsonStatItem.stat JsonStatItem.new k v).1 }
          ((JsonStatItem.stat JsonStatItem.new k v).2.reverse ++ rest) := rfl

/-- Any fuel of at least `valsSize todo` yields the same result: the loop
reaches the empty work list before the fuel runs out, so the fuel bound in
`statLoopN` never cuts the traversal of `stat_value` short. -/
theorem statLoopN_fuel_irrelevant : ∀ (f1 f2 : Nat) (s : JsonStat)
    (todo : List (String × JVal)),
    valsSize todo ≤ f1 → valsSize todo ≤ f2 →
    statLoopN f1 s todo = statLoopN f2 s todo := by
  intro f1
  induction f1 with
  | zero =>
    intro f2 s todo h1 h2
    cases todo with
    | nil => rw [statLoopN_nil, statLoopN_nil]
    | cons hd rest =>
      obtain ⟨k, v⟩ := hd
      have := JVal.size_pos v
      rw [valsSize_cons] at h1
      omega
  | succ n ih =>
    intro f2 s todo h1 h2
    cases todo with
    | nil => rw [statLoopN_nil, statLoopN_nil]
    | cons hd rest =>
      obtain ⟨k, v⟩ := hd
      cases f2 with
      | zero =>
        have := JVal.size_pos v
        rw [valsSize_cons] at h2
        omega
      | succ m =>
        rw [statLoopN_cons, statLoopN_cons]
        have hlt := stat_children_size JsonStatItem.new k v
        have hsz : valsSize ((JsonStatItem.stat JsonStatItem.new k v).2.reverse ++ rest)
            < v.size + valsSize rest := by
          rw [valsSize_append, valsSize_reverse]
          omega
        rw [valsSize_cons] at h1 h2
        exact ih _ _ _ (by omega) (by omega)

theorem valsSize_single (k : String) (v : JVal) :
    valsSize [(k, v)] = v.size := by
  simp [valsSize]

/-- The fuel `stat_value` supplies is exactly `valsSize` of the seeded work
list, so by `statLoopN_fuel_irrelevant` the traversal always runs to
completion: any larger fuel produces the same accumulator. -/
theorem stat_value_fuel_stable (s : JsonStat) (value : JVal) (extra : Nat) :
    (s.stat_value value).1
      = statLoopN (value.size + extra) s [(s.get_group_key value, value)] := by
  unfold JsonStat.stat_value
  exact statLoopN_fuel_irrelevant _ _ _ _
    (by rw [valsSize_single]) (by rw [valsSize_single]; omega)

/-- The document `{"a": -5}`. -/
def docANeg5 : JVal := .obj [("a", .num (.int (-5)))]

/-- The document `{"a": "x"}`. -/
def docAStrX : JVal := .obj [("a", .str "x")]

/-- The document `{"b": true}`. -/
def docBTrue : JVal := .obj [("b", .bool true)]

/-- The document `{"a": -7}`. -/
def docANeg7 : JVal := .obj [("a", .num (.int (-7)))]

/-- The document `{"a": null}`. -/
def docANull : JVal := .obj [("a", .null)]

/-- Accumulator built from the single document `{"a": -5}`. -/
def accA : JsonStat := (JsonStat.new.stat_value docANeg5).1

/-- Accumulator built from the single document `{"a": "x"}`. -/
def accB : JsonStat := (JsonStat.new.stat_value docAStrX).1

/-- Accumulator built from the single document `{"b": true}`. -/
def accC : JsonStat := (JsonStat.new.stat_value docBTrue).1

/-- The document `{"a": 1, "b": "xy", "c": [1,2,3], "d": null}` of the
round-trip scenario. -/
def docRoundTrip : JVal :=
  .obj [("a", .num (.int 1)), ("b", .str "xy"),
    ("c", .arr [.num (.int 1), .num (.int 2), .num (.int 3)]),
    ("d", .null)]

/-- Accumulator built from the single document `{"a": 1, "b": "xy"}`. -/
def accPair : JsonStat :=
  (JsonStat.new.stat_value
    (.obj [("a", .num (.int 1)), ("b", .str "xy")])).1

/-- C1: the claim asserts that for accumulators A, B, C built from disjoint
inputs all three of `merge(merge(A,B),C)`, `merge(A,merge(B,C))` and
`merge(B,merge(A,C))` give identical path-to-stats mappings.  The code
violates this: with A built from `{"a":-5}`, B from `{"a":"x"}` and C from
`{"b":true}`, `merge(merge(A,B),C)` reaches `.a` with int max 0 (the empty
int aggregate of B clamps A's negative max to the default 0), while
`merge(B,merge(A,C))` keeps the true max -5, so the two mappings differ. -/
theorem c1_three_way_merge_differs :
    ((mapGet ((accA.merge accB).merge accC).items ".a").map JsonStatItem.int
        = some ⟨1, 0, -5⟩)
      ∧ ((mapGet (accB.merge (accA.merge accC)).items ".a").map JsonStatItem.int
        = some ⟨1, -5, -5⟩)
      ∧ ((accA.merge accB).merge accC).items
          ≠ (accB.merge (accA.merge accC)).items := by
  decide

/-- C2: the claim asserts that merging an aggregate with an empty one
(`other.count = 0`) leaves `min`, `max` and `count` unchanged.  The code
violates this: merging the aggregate `{count 1, max -5, min -5}` (after
observing -5) with a fresh empty aggregate sets `max` to the empty
aggregate's default 0. -/
theorem c2_merge_with_empty_changes_max :
    (MaxMinCount.new : MaxMinCount Int).count = 0
      ∧ ((MaxMinCount.new : MaxMinCount Int).add (-5)).merge MaxMinCount.new
          = ⟨1, 0, -5⟩
      ∧ (((MaxMinCount.new : MaxMinCount Int).add (-5)).merge MaxMinCount.new).max
          ≠ (((MaxMinCount.new : MaxMinCount Int).add (-5))).max := by
  decide

/-- C3: the claim asserts that after any sequence of observations and
merges, `count = n > 0` implies `min` and `max` equal the true minimum and
maximum of the n observed values.  The code violates this: ingesting
`{"a":-5}` then `{"a":null}` into one accumulator leaves `.a`'s int
aggregate with count 1 and max 0, although the only observed int value is
-5 (the second document's fresh item carries an empty int aggregate whose
default max 0 clamps the stored max). -/
theorem c3_minmax_invariant_fails :
    (mapGet (accA.stat_value docANull).1.items ".a").map JsonStatItem.int
      = some ⟨1, 0, -5⟩ := by
  decide

/-- C4: the claim asserts that ingesting documents into one accumulator
equals building one accumulator per sublist of any partition and merging
them.  The code violates this: for documents `{"a":-5}`, `{"a":"x"}`,
`{"a":-7}` and the contiguous partition `[[d1],[d2,d3]]`, sequential
ingestion yields `.a` int `{count 2, max 0, min -7}` while the merged
per-sublist accumulators yield `{count 2, max -5, min -7}`. -/
theorem c4_sequential_parallel_differ :
    ((mapGet ((accA.stat_value docAStrX).1.stat_value docANeg7).1.items ".a").map
        JsonStatItem.int = some ⟨2, 0, -7⟩)
      ∧ ((mapGet (accA.merge (accB.stat_value docANeg7).1).items ".a").map
          JsonStatItem.int = some ⟨2, -5, -7⟩)
      ∧ ((accA.stat_value docAStrX).1.stat_value docANeg7).1.items
          ≠ (accA.merge (accB.stat_value docANeg7).1).items := by
  decide

/-- C5 counterexample: the claim asserts that a number with no fractional
part, such as one written `3.0`, is counted as integer.  The code counts it
as float: serde_json parses `3.0` into the float representation, on which
`as_i64` fails, so ingesting it increments the float aggregate and leaves
the int aggregate at count 0 — even though its value 3 is integral
(denominator 1). -/
theorem c5_float_literal_counted_as_float :
    ((mapGet (JsonStat.new.stat_value (JVal.num (JNum.float 3))).1.items "").map
        (fun it => (it.int.count, it.float.count)) = some (0, 1))
      ∧ (3 : ℚ).den = 1 := by
  decide

/-- C5 amended: a JSON number is recorded in the integer aggregate iff the
parser represents it as an integer fitting `i64` (`as_i64` succeeds);
otherwise — for every float-represented number, including integral ones
like `3.0`, and for integer representations above `i64::MAX` — it is
recorded in the float aggregate.  The untouched aggregate is unchanged. -/
theorem c5_classification (it : JsonStatItem) (key : String) :
    (∀ n : Int, n ≤ i64Max →
      (it.stat key (.num (.int n))).1 = { it with int := it.int.add n }
        ∧ (it.stat key (.num (.int n))).1.float = it.float)
      ∧ (∀ n : Int, i64Max < n →
        (it.stat key (.num (.int n))).1 = { it with float := it.float.add (n : ℚ) }
          ∧ (it.stat key (.num (.int n))).1.int = it.int)
      ∧ (∀ q : ℚ,
        (it.stat key (.num (.float q))).1 = { it with float := it.float.add q }
          ∧ (it.stat key (.num (.float q))).1.int = it.int) := by
  refine ⟨fun n hn => ?_, fun n hn => ?_, fun q => ?_⟩
  · constructor <;> simp [JsonStatItem.stat, JNum.as_i64, if_pos hn]
  · constructor <;>
      simp [JsonStatItem.stat, JNum.as_i64, JNum.as_f64, if_neg (not_le.mpr hn)]
  · constructor <;> simp [JsonStatItem.stat, JNum.as_i64, JNum.as_f64]

/-- Witness for C5 amended: `3` (integer representation) goes to the int
aggregate; `2^63` (integer representation beyond `i64::MAX`) goes to the
float aggregate. -/
theorem c5_classification_witness :
    ((3 : Int) ≤ i64Max
      ∧ (JsonStatItem.new.stat "" (.num (.int 3))).1
          = { JsonStatItem.new with int := JsonStatItem.new.int.add 3 })
      ∧ (i64Max < (2 ^ 63 : Int)
        ∧ (JsonStatItem.new.stat "" (.num (.int (2 ^ 63)))).1
            = { JsonStatItem.new with
                float := JsonStatItem.new.float.add ((2 ^ 63 : Int) : ℚ) }) :=
  ⟨⟨by decide, ((c5_classification JsonStatItem.new "").1 3 (by decide)).1⟩,
   ⟨by decide, ((c5_classification JsonStatItem.new "").2.1 (2 ^ 63) (by decide)).1⟩⟩

/-- C6: `stat_str` on a line that fails to parse returns `false` and leaves
the accumulator exactly as it was; on a line parsing to a value it ingests
the value via `stat_value` and returns `true`. -/
theorem c6_parse_failure_atomicity :
    ∀ s : JsonStat,
      JsonStat.stat_str s none = (s, false)
        ∧ ∀ v : JVal,
          JsonStat.stat_str s (some v) = s.stat_value v
            ∧ (JsonStat.stat_str s (some v)).2 = true :=
  fun _ => ⟨rfl, fun _ => ⟨rfl, rfl⟩⟩

/-- C7: the grouped root path equals the spec-side walk of the grouping
key's dotted segments (empty string when a segment is absent, an
intermediate value is not an object, or the final value is not a string),
the ungrouped root path is always `""`, and in the concrete scenario the
grouping key `user.id` places `x`'s stats under the `u1` group (path
`u1.x`, not `.x`) while a document missing `user.id` falls back to the
empty-string group (path `.x`). -/
theorem c7_grouping_key_root_path :
    (∀ (gk : String) (v : JVal),
        (JsonStat.new_by_group gk).get_group_key v = specGroupPath gk v)
      ∧ (∀ v : JVal, JsonStat.new.get_group_key v = "")
      ∧ ((JsonStat.new_by_group "user.id").get_group_key
          (JVal.obj [("user", JVal.obj [("id", JVal.str "u1")]),
            ("x", JVal.num (JNum.int 1))]) = "u1")
      ∧ ((mapGet ((JsonStat.new_by_group "user.id").stat_value
          (JVal.obj [("user", JVal.obj [("id", JVal.str "u1")]),
            ("x", JVal.num (JNum.int 1))])).1.items "u1.x").map JsonStatItem.int
          = some ⟨1, 1, 1⟩)
      ∧ (mapGet ((JsonStat.new_by_group "user.id").stat_value
          (JVal.obj [("user", JVal.obj [("id", JVal.str "u1")]),
            ("x", JVal.num (JNum.int 1))])).1.items ".x" = none)
      ∧ ((JsonStat.new_by_group "user.id").get_group_key
          (JVal.obj [("x", JVal.num (JNum.int 1))]) = "")
      ∧ ((mapGet ((JsonStat.new_by_group "user.id").stat_value
          (JVal.obj [("x", JVal.num (JNum.int 1))])).1.items ".x").map
            JsonStatItem.int = some ⟨1, 1, 1⟩) :=
  ⟨get_group_key_spec, fun _ => rfl, by decide, by decide, by decide,
   by decide, by decide⟩

/-- C8: ingesting `{"a": 1, "b": "xy", "c": [1,2,3], "d": null}` once into
a fresh ungrouped accumulator yields `.a` int count 1 min 1 max 1, `.b`
string count 1 min 2 max 2, `.c` array count 1 min 3 max 3, `.c[]` int
count 3 min 1 max 3, and `.d` null count 1. -/
theorem c8_single_document_round_trip :
    ((mapGet (JsonStat.new.stat_value docRoundTrip).1.items ".a").map
        JsonStatItem.int = some ⟨1, 1, 1⟩)
      ∧ ((mapGet (JsonStat.new.stat_value docRoundTrip).1.items ".b").map
          JsonStatItem.string = some ⟨1, 2, 2⟩)
      ∧ ((mapGet (JsonStat.new.stat_value docRoundTrip).1.items ".c").map
          JsonStatItem.array = some ⟨1, 3, 3⟩)
      ∧ ((mapGet (JsonStat.new.stat_value docRoundTrip).1.items ".c[]").map
          JsonStatItem.int = some ⟨3, 3, 1⟩)
      ∧ ((mapGet (JsonStat.new.stat_value docRoundTrip).1.items ".d").map
          (fun it => it.null.count) = some 1) := by
  decide

/-- C9: for every accumulator (whose mapping satisfies the `BTreeMap`
sortedness invariant), the compact serialization lists the paths in map
(path) order, each rendered by `to_json_value`; and every rendered item
contains exactly the kind groups with non-zero count — `{count, min, max}`
for the ordered kinds int, float, string, array and `{count}` for the
counter kinds null, bool, object — with zero-count kinds omitted. -/
theorem c9_compact_rendering (s : JsonStat) (h : KeysSorted s.items) :
    s.to_json_compact
        = JVal.obj (s.items.map (fun kv => (kv.1, kv.2.to_json_value)))
      ∧ ∀ it : JsonStatItem, it.to_json_value = JVal.obj (compactFieldsSpec it) := by
  constructor
  · unfold JsonStat.to_json_compact
    rw [foldl_mapInsert_sorted JsonStatItem.to_json_value s.items [] h
      (by simp)]
    simp
  · exact to_json_value_eq_spec

/-- Witness for C9 at a concretely built accumulator. -/
theorem c9_compact_rendering_witness :
    KeysSorted accPair.items
      ∧ (accPair.to_json_compact
          = JVal.obj (accPair.items.map (fun kv => (kv.1, kv.2.to_json_value)))
        ∧ ∀ it : JsonStatItem, it.to_json_value = JVal.obj (compactFieldsSpec it)) :=
  ⟨by decide, c9_compact_rendering accPair (by decide)⟩

/-- C10: a string observation records the UTF-8 byte length of the string
(Rust `String::len`), not its number of Unicode scalar values: a single
3-byte character contributes 3 while its scalar count is 1. -/
theorem c10_string_length_is_utf8_bytes :
    (∀ (it : JsonStatItem) (key sv : String),
        (it.stat key (.str sv)).1
          = { it with string := it.string.add sv.utf8ByteSize })
      ∧ (JsonStatItem.stat JsonStatItem.new "" (.str "中")).1.string = ⟨1, 3, 3⟩
      ∧ ("中" : String).length = 1 :=
  ⟨fun _ _ _ => rfl, by decide, by decide⟩

end Jsonstat
